import Mathlib

/-!
Verification development for the streaming core of fluxplayercli
(single source file `src/main.rs`).

The embedding models: the shared `PlayerStatus` atomics, the bounded
SPSC `RingBuffer` (the relevant behaviour of the ringbuf crate:
`push_slice` transfers exactly as many samples as fit, `pop_slice`
exactly as many as are queued, bounded by the request), the PortAudio
output callback closure (main.rs lines 158-182), the `send_audio`
feeder loop (lines 262-281) instrumented with an event trace and an
explicit schedule of concurrent consumer pops, and the post-start
lifecycle step of `main` (lines 190-194).

Samples are modelled over ℚ; the only arithmetic the core performs on
a sample is multiplication by the gain 0.5, which is a power of two
and hence exact in f32 as well.
-/

/-- Number of output channels: `const CHANNELS: i32 = 2` (main.rs line 21). -/
def CHANNELS : Nat := 2

/-- Output sample rate `const SAMPLE_RATE: f64 = 48000.0` (line 22), as the
integer it is cast to where it is used as a size. -/
def SAMPLE_RATE : Nat := 48000

/-- `const FRAMES_PER_BUFFER: u32 = 512` (line 23). -/
def FRAMES_PER_BUFFER : Nat := 512

/-- `const BUFFER_SIZE: usize = SAMPLE_RATE as usize * CHANNELS as usize` (line 24). -/
def BUFFER_SIZE : Nat := SAMPLE_RATE * CHANNELS

/-- Fixed gain factor `const GAIN: f32 = 0.5` (line 29). -/
def GAIN : ℚ := 1 / 2

/-- The shared status structure (main.rs lines 31-36).  Each field is an
independent atomic in the source; the model keeps their plain values. -/
structure PlayerStatus where
  is_decoding : Bool
  is_playing : Bool
  frames_decoded : Nat
  frames_played : Nat
deriving DecidableEq

/-- `PlayerStatus::new` (lines 38-47): everything false / zero. -/
def PlayerStatus.new : PlayerStatus :=
  { is_decoding := false, is_playing := false, frames_decoded := 0, frames_played := 0 }

/-- The bounded SPSC ring (`ringbuf::RingBuffer::<f32>::new(BUFFER_SIZE)`, line 150),
modelled as a capacity plus the queued samples in FIFO order. -/
structure RingBuffer where
  capacity : Nat
  queue : List ℚ
deriving DecidableEq

/-- `ringbuf::RingBuffer::new`: an empty ring of the given capacity. -/
def RingBuffer.new (cap : Nat) : RingBuffer :=
  { capacity := cap, queue := [] }

/-- Producer side `push_slice`: transfers exactly as many samples from the
front of `data` as fit in the remaining capacity (a partial write when the
ring is nearly full, zero when it is full), returning the new ring and the
count written. -/
def RingBuffer.push_slice (rb : RingBuffer) (data : List ℚ) : RingBuffer × Nat :=
  let n := min (rb.capacity - rb.queue.length) data.length
  ({ capacity := rb.capacity, queue := rb.queue ++ data.take n }, n)

/-- Consumer side `pop_slice` into a buffer of length `len`: removes and
returns exactly `min len occupancy` samples from the front of the queue. -/
def RingBuffer.pop_slice (rb : RingBuffer) (len : Nat) : RingBuffer × List ℚ :=
  let n := min len rb.queue.length
  ({ capacity := rb.capacity, queue := rb.queue.drop n }, rb.queue.take n)

/-- Consumer side `is_empty`. -/
def RingBuffer.is_empty (rb : RingBuffer) : Bool :=
  rb.queue.isEmpty

/-- Events emitted by one iteration of the `send_audio` retry loop:
the conditional back-off sleep (line 271) and a `push_slice` attempt that
transferred `n` samples (line 274). -/
inductive FeedEvent where
  | sleep : FeedEvent
  | push : Nat → FeedEvent
deriving DecidableEq

/-- Result of a terminating run of the `send_audio` loop: final ring and
status, final `sent_size`, the trace of sleep/push events, and the samples
the concurrent consumer popped during the run (in order). -/
structure SendResult where
  rb : RingBuffer
  status : PlayerStatus
  sent : Nat
  events : List FeedEvent
  popped : List ℚ
deriving DecidableEq

/-- The `send_audio` retry loop (main.rs lines 268-280), fuelled so that a
run against a consumer that never frees space is `none` rather than an
infinite spin.  `sched` gives, for each iteration, the buffer size the
concurrent consumer pops before the producer's next attempt (0 when the
consumer does not run); this models the interleaving with the callback
thread.  Each iteration is the literal loop body: sleep when
`sent_size > 0`, `push_slice(&data[sent_size..])`, accumulate `sent_size`,
and `frames_decoded += current_size / CHANNELS`. -/
def sendAudioGo (fuel : Nat) (data : List ℚ) (sent_size : Nat) (rb : RingBuffer)
    (status : PlayerStatus) (sched : List Nat) : Option SendResult :=
  if sent_size < data.length then
    match fuel with
    | 0 => none
    | fuel' + 1 =>
      let rbp := rb.pop_slice (sched.headD 0)
      let ev0 : List FeedEvent := if 0 < sent_size then [FeedEvent.sleep] else []
      let pushed := rbp.1.push_slice (data.drop sent_size)
      let current_size := pushed.2
      let status' : PlayerStatus :=
        { status with frames_decoded := status.frames_decoded + current_size / CHANNELS }
      (sendAudioGo fuel' data (sent_size + current_size) pushed.1 status' sched.tail).map
        (fun r =>
          { rb := r.rb, status := r.status, sent := r.sent,
            events := ev0 ++ FeedEvent.push current_size :: r.events,
            popped := rbp.2 ++ r.popped })
  else
    some { rb := rb, status := status, sent := sent_size, events := [], popped := [] }

/-- `send_audio(audio_frame, rb_tx, status)` (main.rs lines 262-281): run the
retry loop from `sent_size = 0` on the frame's interleaved sample slice
`data`, under consumer schedule `sched` and the given fuel. -/
def send_audio (data : List ℚ) (rb_tx : RingBuffer) (status : PlayerStatus)
    (sched : List Nat) (fuel : Nat) : Option SendResult :=
  sendAudioGo fuel data 0 rb_tx status sched

/-- One iteration of the callback's inner per-sample body (main.rs lines
165-170): past the received count write silence, otherwise scale the
ring-sourced sample in place by `GAIN`. -/
def applyAt (buffer : List ℚ) (recv_size idx : Nat) : List ℚ :=
  if idx ≥ recv_size then buffer.set idx 0
  else buffer.set idx (buffer.getD idx 0 * GAIN)

/-- The callback's inner `for _ in 0..CHANNELS` loop (lines 164-171):
apply the body at `c` consecutive indices starting at `idx`, returning the
buffer and the advanced index. -/
def walkChannels : List ℚ → Nat → Nat → Nat → List ℚ × Nat
  | buffer, _, idx, 0 => (buffer, idx)
  | buffer, recv_size, idx, c + 1 =>
    walkChannels (applyAt buffer recv_size idx) recv_size (idx + 1) c

/-- The callback's outer `for _ in 0..frames` loop (lines 163-174): per
frame, walk `CHANNELS` buffer slots and then `frames_played.fetch_add(1)`. -/
def walkFrames : List ℚ → Nat → Nat → Nat → Nat → List ℚ × Nat × Nat
  | buffer, _, idx, played, 0 => (buffer, idx, played)
  | buffer, recv_size, idx, played, f + 1 =>
    let wc := walkChannels buffer recv_size idx CHANNELS
    walkFrames wc.1 recv_size wc.2 (played + 1) f

/-- The two signals a PortAudio callback may return (`pa::Continue`,
`pa::Complete`). -/
inductive StreamCallbackResult where
  | Continue : StreamCallbackResult
  | Complete : StreamCallbackResult
deriving DecidableEq

/-- Everything one callback invocation produces: the ring and status after
the call, the output buffer contents, this invocation's `recv_size`, and
the flow signal returned to PortAudio. -/
structure CallbackOut where
  rb : RingBuffer
  status : PlayerStatus
  buffer : List ℚ
  recv_size : Nat
  flow : StreamCallbackResult
deriving DecidableEq

/-- The output-stream callback closure (main.rs lines 158-182).
`pop_slice(buffer)` fills a prefix of the buffer with samples from the
ring (the rest keeps its previous contents) and returns the count; then
the nested frame/channel walk applies gain or silence and counts played
frames; finally the completion check: when `is_decoding` is false, the
ring is empty and this pop returned 0, store `is_playing = false` and
return `pa::Complete`, otherwise return `pa::Continue`. -/
def callback (rb_rx : RingBuffer) (status_cb : PlayerStatus) (buffer : List ℚ)
    (frames : Nat) : CallbackOut :=
  let pr := rb_rx.pop_slice buffer.length
  let rb1 := pr.1
  let popped := pr.2
  let recv_size := popped.length
  let buf1 := popped ++ buffer.drop popped.length
  let wf := walkFrames buf1 recv_size 0 status_cb.frames_played frames
  let status : PlayerStatus := { status_cb with frames_played := wf.2.2 }
  if !status.is_decoding && rb1.queue.isEmpty && (recv_size == 0) then
    { rb := rb1, status := { status with is_playing := false }, buffer := wf.1,
      recv_size := recv_size, flow := StreamCallbackResult.Complete }
  else
    { rb := rb1, status := status, buffer := wf.1,
      recv_size := recv_size, flow := StreamCallbackResult.Continue }

/-- The `Idle -> Streaming` transition of `main` (lines 190-194): when
`pa_stream.start()` succeeds, store `is_playing = true`; when it fails the
program panics, modelled as `none`. -/
def startStream (start_ok : Bool) (status : PlayerStatus) : Option PlayerStatus :=
  if start_ok then some { status with is_playing := true } else none

/-- Buffer component of walking the loop body over `n` consecutive indices
starting at `idx`; the vehicle for reasoning about the nested walk. -/
def applyRange : List ℚ → Nat → Nat → Nat → List ℚ
  | buffer, _, _, 0 => buffer
  | buffer, recv_size, idx, n + 1 => applyRange (applyAt buffer recv_size idx) recv_size (idx + 1) n

/-- The transfer counts of the push events of a feeder trace, in order. -/
def pushCounts : List FeedEvent → List Nat
  | [] => []
  | FeedEvent.push n :: rest => n :: pushCounts rest
  | FeedEvent.sleep :: rest => pushCounts rest

/-- The successive values of `sent_size` right after each push, starting
from accumulated count `acc`: exactly the values the assertion at
main.rs line 277 inspects. -/
def sentSizes : Nat → List Nat → List Nat
  | _, [] => []
  | acc, n :: rest => (acc + n) :: sentSizes (acc + n) rest

/-- FIFO / exactly-once correctness of one `send_audio` run: when the loop
returns, the whole slice has been accumulated into `sent`, and the samples
the concurrent consumer popped followed by what is still queued are exactly
the old queue contents followed by the slice - nothing lost, duplicated or
reordered.  A run that does not terminate within its fuel makes no claim. -/
def sendFifoOK (data : List ℚ) (rb : RingBuffer) : Option SendResult → Prop
  | none => True
  | some out => out.sent = data.length ∧ out.popped ++ out.rb.queue = rb.queue ++ data

/-- Rendering of the claim that every retry is preceded by a sleep: the
trace never contains two push attempts with no sleep between them. -/
def noBackToBackPush : List FeedEvent → Bool
  | FeedEvent.push _ :: FeedEvent.push _ :: _ => false
  | _ :: rest => noBackToBackPush rest
  | [] => true

/-- The sleep discipline the loop actually implements, tracked against the
accumulated count: a push immediately preceded by a sleep is legal exactly
when some samples had already been transferred, a push with no preceding
sleep is legal exactly when the accumulated count is still zero. -/
def retrySleepPattern : Nat → List FeedEvent → Bool
  | _, [] => true
  | sent, FeedEvent.sleep :: FeedEvent.push n :: rest =>
    decide (0 < sent) && retrySleepPattern (sent + n) rest
  | sent, FeedEvent.push n :: rest => (sent == 0) && retrySleepPattern (sent + n) rest
  | _, FeedEvent.sleep :: _ => false

/-- Boolean form of the send_audio half of the alignment assertions: every
value `sent_size` takes right after a push during a terminating run is a
multiple of `CHANNELS` (the assertion at main.rs line 277). -/
def sendAssertOK : Option SendResult → Bool
  | none => true
  | some out => (sentSizes 0 (pushCounts out.events)).all (fun s => s % CHANNELS == 0)

/-- Exactness of the frame accounting of one terminating `send_audio` run:
the final `frames_decoded` grew by exactly the frame count of the slice. -/
def sendDecodedOK (st : PlayerStatus) (data : List ℚ) : Option SendResult → Prop
  | none => True
  | some out => out.status.frames_decoded = st.frames_decoded + data.length / CHANNELS

/-- The sleep discipline of a terminating `send_audio` run, as a property
of its trace. -/
def sleepPatternOK : Option SendResult → Prop
  | none => True
  | some out => retrySleepPattern 0 out.events = true

/-- Global state shared by the three threads once the stream is started:
the ring, the shared status, whether PortAudio stopped invoking the
callback (it does after receiving `pa::Complete`), and the decoded frames
the main thread has not fed yet. -/
structure Sys where
  rb : RingBuffer
  status : PlayerStatus
  stopped : Bool
  pending : List (List ℚ)
deriving DecidableEq

/-- One schedulable step of the interleaved system: the audio thread runs
the callback on a buffer, or the main thread feeds its next decoded frame
(`send_audio` followed by the successful `compare_exchange_weak` of
`is_decoding` to true, lines 224-226), or the main thread performs the
final `is_decoding.store(false)` (line 247). -/
inductive MainOp where
  | cb : List ℚ → Nat → MainOp
  | feed : List Nat → Nat → MainOp
  | finishDecoding : MainOp

/-- The system state immediately after `pa_stream.start()` succeeded
(main.rs lines 190-194): `is_playing` stored true, the ring freshly
created and empty (line 150), and `is_decoding` still false as set by
`PlayerStatus::new` (line 41), because the packet loop (lines 214-238)
has not pushed anything yet. -/
def initSys (pending : List (List ℚ)) : Sys :=
  { rb := RingBuffer.new BUFFER_SIZE,
    status := (startStream true PlayerStatus.new).getD PlayerStatus.new,
    stopped := false,
    pending := pending }

/-- Effect of one interleaved step on the system state. -/
def sysStep (s : Sys) : MainOp → Sys
  | MainOp.cb buffer frames =>
    if s.stopped then s
    else
      let out := callback s.rb s.status buffer frames
      { s with rb := out.rb, status := out.status,
               stopped := out.flow == StreamCallbackResult.Complete }
  | MainOp.feed sched fuel =>
    match s.pending with
    | [] => s
    | d :: rest =>
      match send_audio d s.rb s.status sched fuel with
      | none => s
      | some out =>
        { rb := out.rb, status := { out.status with is_decoding := true },
          stopped := s.stopped, pending := rest }
  | MainOp.finishDecoding =>
    { s with status := { s.status with is_decoding := false } }

example : (send_audio [1, 2] (RingBuffer.new 4) PlayerStatus.new [] 2).map
    (fun r => (r.sent, r.status.frames_decoded, r.rb.queue)) = some (2, 1, [1, 2]) := by
  decide

example :
    (callback { capacity := 4, queue := [1, 2] } PlayerStatus.new [3, 4, 5, 6] 2).buffer
      = [1 / 2, 1, 0, 0] := by
  simp [callback, walkFrames, walkChannels, applyAt, RingBuffer.pop_slice, CHANNELS, GAIN]

example :
    (callback { capacity := 4, queue := [] } { PlayerStatus.new with is_playing := true }
      [3, 4] 1).flow = StreamCallbackResult.Complete := by
  decide

example :
    (callback { capacity := 4, queue := [] }
      { PlayerStatus.new with is_playing := true, is_decoding := true }
      [3, 4] 1).flow = StreamCallbackResult.Continue := by
  decide

theorem walkChannels_eq (c : Nat) :
    ∀ (b : List ℚ) (r i : Nat), walkChannels b r i c = (applyRange b r i c, i + c) := by
  induction c with
  | zero => intro b r i; rfl
  | succ c ih =>
    intro b r i
    show walkChannels (applyAt b r i) r (i + 1) c = _
    rw [ih]
    show (_, (i + 1) + c) = (_, i + (c + 1))
    rw [Nat.add_assoc, Nat.add_comm 1 c]
    rfl

theorem applyRange_add (m : Nat) :
    ∀ (b : List ℚ) (r i n : Nat),
      applyRange (applyRange b r i m) r (i + m) n = applyRange b r i (m + n) := by
  induction m with
  | zero => intro b r i n; simp [applyRange]
  | succ m ih =>
    intro b r i n
    show applyRange (applyRange (applyAt b r i) r (i + 1) m) r (i + (m + 1)) n = _
    have h1 : i + (m + 1) = (i + 1) + m := by omega
    rw [h1, ih]
    have h2 : m + 1 + n = (m + n) + 1 := by omega
    rw [h2]
    rfl

theorem walkFrames_eq (f : Nat) :
    ∀ (b : List ℚ) (r i p : Nat),
      walkFrames b r i p f = (applyRange b r i (CHANNELS * f), i + CHANNELS * f, p + f) := by
  induction f with
  | zero => intro b r i p; simp [walkFrames, applyRange]
  | succ f ih =>
    intro b r i p
    show walkFrames (walkChannels b r i CHANNELS).1 r (walkChannels b r i CHANNELS).2 (p + 1) f = _
    rw [walkChannels_eq]
    show walkFrames (applyRange b r i CHANNELS) r (i + CHANNELS) (p + 1) f = _
    rw [ih, applyRange_add]
    have h1 : CHANNELS + CHANNELS * f = CHANNELS * (f + 1) := by ring
    have h2 : i + CHANNELS + CHANNELS * f = i + CHANNELS * (f + 1) := by omega
    rw [h1, h2]
    have h3 : p + 1 + f = p + (f + 1) := by omega
    rw [h3]

theorem walkFrames_played (f : Nat) (b : List ℚ) (r i p : Nat) :
    (walkFrames b r i p f).2.2 = p + f := by
  rw [walkFrames_eq]

theorem applyRange_nil (n : Nat) : ∀ (r i : Nat), applyRange [] r i n = [] := by
  induction n with
  | zero => intro r i; rfl
  | succ n ih =>
    intro r i
    show applyRange (applyAt [] r i) r (i + 1) n = []
    have h : applyAt [] r i = [] := by unfold applyAt; split <;> rfl
    rw [h, ih]

theorem applyAt_cons (y : ℚ) (l : List ℚ) (r i : Nat) :
    applyAt (y :: l) r (i + 1) = y :: applyAt l (r - 1) i := by
  unfold applyAt
  rcases r with _ | s
  · simp
  · by_cases h : i + 1 ≥ s + 1
    · rw [if_pos h, if_pos (by omega : i ≥ s + 1 - 1)]
      rfl
    · rw [if_neg h, if_neg (by omega : ¬ i ≥ s + 1 - 1)]
      rfl

theorem applyRange_cons_shift (n : Nat) :
    ∀ (y : ℚ) (l : List ℚ) (r i : Nat),
      applyRange (y :: l) r (i + 1) n = y :: applyRange l (r - 1) i n := by
  induction n with
  | zero => intro y l r i; rfl
  | succ n ih =>
    intro y l r i
    show applyRange (applyAt (y :: l) r (i + 1)) r (i + 2) n = _
    rw [applyAt_cons, ih]
    rfl

theorem applyRange_full :
    ∀ (l : List ℚ) (r n : Nat), r ≤ l.length → l.length ≤ n →
      applyRange l r 0 n
        = (l.take r).map (fun x => x * GAIN) ++ List.replicate (l.length - r) 0 := by
  intro l
  induction l with
  | nil => intro r n _ _; simp [applyRange_nil]
  | cons x l ih =>
    intro r n hr hn
    rcases n with _ | m
    · simp at hn
    rcases r with _ | s
    · show applyRange (applyAt (x :: l) 0 0) 0 1 m = _
      have ha : applyAt (x :: l) 0 0 = (0 : ℚ) :: l := by
        unfold applyAt
        rw [if_pos (Nat.zero_le 0)]
        rfl
      rw [ha]
      have := applyRange_cons_shift m (0 : ℚ) l 0 0
      rw [this]
      rw [ih 0 m (Nat.zero_le _) (by simpa using hn)]
      simp [List.replicate_succ]
    · show applyRange (applyAt (x :: l) (s + 1) 0) (s + 1) 1 m = _
      have ha : applyAt (x :: l) (s + 1) 0 = (x * GAIN) :: l := by
        unfold applyAt
        rw [if_neg (by omega : ¬ 0 ≥ s + 1)]
        rfl
      rw [ha]
      have := applyRange_cons_shift m (x * GAIN) l (s + 1) 0
      rw [this]
      simp only [Nat.add_sub_cancel]
      rw [ih s m (by simpa using hr) (by simpa using hn)]
      simp

theorem callback_def (rb : RingBuffer) (st : PlayerStatus) (buf : List ℚ) (frames : Nat) :
    callback rb st buf frames =
      { rb := { capacity := rb.capacity,
                queue := rb.queue.drop (min buf.length rb.queue.length) },
        status := { is_decoding := st.is_decoding,
                    is_playing :=
                      if !st.is_decoding
                          && (rb.queue.drop (min buf.length rb.queue.length)).isEmpty
                          && (min buf.length rb.queue.length == 0) then false
                      else st.is_playing,
                    frames_decoded := st.frames_decoded,
                    frames_played := st.frames_played + frames },
        buffer := applyRange
          (rb.queue.take (min buf.length rb.queue.length)
            ++ buf.drop (min buf.length rb.queue.length))
          (min buf.length rb.queue.length) 0 (CHANNELS * frames),
        recv_size := min buf.length rb.queue.length,
        flow :=
          if !st.is_decoding
              && (rb.queue.drop (min buf.length rb.queue.length)).isEmpty
              && (min buf.length rb.queue.length == 0) then StreamCallbackResult.Complete
          else StreamCallbackResult.Continue } := by
  have hlen : (rb.queue.take (min buf.length rb.queue.length)).length
      = min buf.length rb.queue.length := by
    simp [List.length_take]
  simp only [callback, RingBuffer.pop_slice, hlen, walkFrames_eq]
  split <;> simp_all

theorem sendAudioGo_fifo :
    ∀ (fuel : Nat) (data : List ℚ) (sent : Nat) (rb : RingBuffer) (st : PlayerStatus)
      (sched : List Nat) (out : SendResult),
      sent ≤ data.length →
      sendAudioGo fuel data sent rb st sched = some out →
      out.sent = data.length ∧ out.popped ++ out.rb.queue = rb.queue ++ data.drop sent := by
  intro fuel
  induction fuel with
  | zero =>
    intro data sent rb st sched out hle h
    unfold sendAudioGo at h
    split at h
    · exact absurd h (by simp)
    · rename_i hge
      have hsent : sent = data.length := by omega
      cases h
      subst hsent
      simp
  | succ fuel ih =>
    intro data sent rb st sched out hle h
    unfold sendAudioGo at h
    split at h
    · rename_i hlt
      rw [Option.map_eq_some'] at h
      obtain ⟨r, heq, hout⟩ := h
      subst hout
      have hc : ((rb.pop_slice (sched.headD 0)).1.push_slice (data.drop sent)).2
          ≤ data.length - sent := by
        simp [RingBuffer.push_slice, RingBuffer.pop_slice]
      have hrec := ih data
        (sent + ((rb.pop_slice (sched.headD 0)).1.push_slice (data.drop sent)).2)
        ((rb.pop_slice (sched.headD 0)).1.push_slice (data.drop sent)).1
        _ sched.tail r (by omega) heq
      refine ⟨hrec.1, ?_⟩
      have h2 := hrec.2
      simp only [RingBuffer.push_slice, RingBuffer.pop_slice] at h2 ⊢
      rw [List.append_assoc, h2]
      have hdd : data.drop (sent + ((rb.pop_slice (sched.headD 0)).1.push_slice
          (data.drop sent)).2) = (data.drop sent).drop
            ((rb.pop_slice (sched.headD 0)).1.push_slice (data.drop sent)).2 := by
        rw [List.drop_drop]
      simp only [RingBuffer.push_slice, RingBuffer.pop_slice] at hdd
      rw [hdd, List.append_assoc, List.take_append_drop, ← List.append_assoc,
        List.take_append_drop]
    · rename_i hge
      have hsent : sent = data.length := by omega
      cases h
      subst hsent
      simp

theorem pushCounts_iter (p : Prop) [Decidable p] (n : Nat) (l : List FeedEvent) :
    pushCounts ((if p then [FeedEvent.sleep] else []) ++ FeedEvent.push n :: l)
      = n :: pushCounts l := by
  split <;> simp [pushCounts]

theorem sendAudioGo_aligned :
    ∀ (fuel : Nat) (data : List ℚ) (sent : Nat) (rb : RingBuffer) (st : PlayerStatus)
      (sched : List Nat) (out : SendResult),
      data.length % CHANNELS = 0 → sent % CHANNELS = 0 → sent ≤ data.length →
      rb.capacity % CHANNELS = 0 → rb.queue.length % CHANNELS = 0 →
      (∀ n ∈ sched, n % CHANNELS = 0) →
      sendAudioGo fuel data sent rb st sched = some out →
      ((sentSizes sent (pushCounts out.events)).all (fun s => s % CHANNELS == 0) = true
        ∧ out.status.frames_decoded
            = st.frames_decoded + (data.length - sent) / CHANNELS) := by
  intro fuel
  induction fuel with
  | zero =>
    intro data sent rb st sched out h1 h2 hle h4 h5 h6 h
    unfold sendAudioGo at h
    split at h
    · exact absurd h (by simp)
    · rename_i hge
      cases h
      have hsent : sent = data.length := by omega
      subst hsent
      simp [sentSizes, pushCounts]
  | succ fuel ih =>
    intro data sent rb st sched out h1 h2 hle h4 h5 h6 h
    unfold sendAudioGo at h
    split at h
    · rename_i hlt
      rw [Option.map_eq_some'] at h
      obtain ⟨r, heq, hout⟩ := h
      subst hout
      have hhead : sched.headD 0 % CHANNELS = 0 := by
        cases sched with
        | nil => simp
        | cons a t => exact h6 a (by simp)
      have htail : ∀ n ∈ sched.tail, n % CHANNELS = 0 := by
        intro n hn
        cases sched with
        | nil => simp at hn
        | cons a t => exact h6 n (List.mem_cons_of_mem a hn)
      have hcval : ((rb.pop_slice (sched.headD 0)).1.push_slice (data.drop sent)).2
          = min (rb.capacity - (rb.queue.length - min (sched.headD 0) rb.queue.length))
              (data.length - sent) := by
        simp [RingBuffer.push_slice, RingBuffer.pop_slice]
      have hcmod : ((rb.pop_slice (sched.headD 0)).1.push_slice (data.drop sent)).2
          % CHANNELS = 0 := by
        rw [hcval]
        simp only [CHANNELS] at h1 h2 h4 h5 hhead ⊢
        omega
      have hcle : ((rb.pop_slice (sched.headD 0)).1.push_slice (data.drop sent)).2
          ≤ data.length - sent := by
        rw [hcval]
        omega
      have hcap2 : (((rb.pop_slice (sched.headD 0)).1.push_slice (data.drop sent)).1).capacity
          % CHANNELS = 0 := by
        simpa [RingBuffer.push_slice, RingBuffer.pop_slice] using h4
      have hq2 : (((rb.pop_slice (sched.headD 0)).1.push_slice (data.drop sent)).1).queue.length
          % CHANNELS = 0 := by
        simp only [RingBuffer.push_slice, RingBuffer.pop_slice, List.length_append,
          List.length_take, List.length_drop]
        simp only [CHANNELS] at h1 h2 h4 h5 hhead ⊢
        omega
      have hrec := ih data
        (sent + ((rb.pop_slice (sched.headD 0)).1.push_slice (data.drop sent)).2)
        ((rb.pop_slice (sched.headD 0)).1.push_slice (data.drop sent)).1
        _ sched.tail r h1
        (by simp only [CHANNELS] at h2 hcmod ⊢; omega)
        (by omega) hcap2 hq2 htail heq
      constructor
      · dsimp only
        rw [pushCounts_iter]
        show (sentSizes sent (_ :: _)).all _ = true
        rw [sentSizes]
        simp only [List.all_cons, Bool.and_eq_true, beq_iff_eq]
        refine ⟨?_, hrec.1⟩
        simp only [CHANNELS] at h2 hcmod ⊢
        omega
      · have hr2 := hrec.2
        dsimp only at hr2 ⊢
        rw [hr2]
        simp only [CHANNELS] at h1 h2 hcmod hcle ⊢
        omega
    · rename_i hge
      cases h
      have hsent : sent = data.length := by omega
      subst hsent
      simp [sentSizes, pushCounts]

theorem sendAudioGo_sleepPattern :
    ∀ (fuel : Nat) (data : List ℚ) (sent : Nat) (rb : RingBuffer) (st : PlayerStatus)
      (sched : List Nat) (out : SendResult),
      sendAudioGo fuel data sent rb st sched = some out →
      retrySleepPattern sent out.events = true := by
  intro fuel
  induction fuel with
  | zero =>
    intro data sent rb st sched out h
    unfold sendAudioGo at h
    split at h
    · exact absurd h (by simp)
    · cases h
      simp [retrySleepPattern]
  | succ fuel ih =>
    intro data sent rb st sched out h
    unfold sendAudioGo at h
    split at h
    · rw [Option.map_eq_some'] at h
      obtain ⟨r, heq, hout⟩ := h
      subst hout
      have hr := ih data _ _ _ sched.tail r heq
      dsimp only
      by_cases hs : 0 < sent
      · rw [if_pos hs]
        show retrySleepPattern sent
          (FeedEvent.sleep :: FeedEvent.push _ :: r.events) = true
        simp [retrySleepPattern, hs]
        simpa using hr
      · rw [if_neg hs]
        have hs0 : sent = 0 := by omega
        subst hs0
        show retrySleepPattern 0 (FeedEvent.push _ :: r.events) = true
        simp [retrySleepPattern]
        simpa using hr
    · cases h
      simp [retrySleepPattern]

/-- C1: for every callback invocation, the callback signals completion
(stores is_playing = false and returns pa::Complete) exactly when
is_decoding is false, the ring is empty and this invocation's pop returned
0 samples; in every other case it returns pa::Continue and leaves
is_playing unchanged. -/
theorem callback_completion_signal (rb : RingBuffer) (st : PlayerStatus) (buf : List ℚ)
    (frames : Nat) :
    ((callback rb st buf frames).flow
        = if !st.is_decoding && (callback rb st buf frames).rb.queue.isEmpty
            && ((callback rb st buf frames).recv_size == 0)
          then StreamCallbackResult.Complete else StreamCallbackResult.Continue)
    ∧ ((callback rb st buf frames).status.is_playing
        = if !st.is_decoding && (callback rb st buf frames).rb.queue.isEmpty
            && ((callback rb st buf frames).recv_size == 0)
          then false else st.is_playing) := by
  rw [callback_def]
  dsimp only
  exact ⟨rfl, rfl⟩

/-- C4: every callback invocation advances frames_played by exactly the
frame count PortAudio passed, whether the frames carried ring samples or
silence. -/
theorem frames_played_full_buffer (rb : RingBuffer) (st : PlayerStatus) (buf : List ℚ)
    (frames : Nat) :
    (callback rb st buf frames).status.frames_played = st.frames_played + frames := by
  rw [callback_def]

/-- C6: a terminating send_audio run transfers the whole slice, in order,
exactly once: the samples the consumer popped during the run followed by
what remains queued equal the old queue contents followed by the slice,
and the accumulated count equals the slice length. -/
theorem send_audio_fifo (data : List ℚ) (rb : RingBuffer) (st : PlayerStatus)
    (sched : List Nat) (fuel : Nat) :
    sendFifoOK data rb (send_audio data rb st sched fuel) := by
  cases he : send_audio data rb st sched fuel with
  | none => simp [sendFifoOK]
  | some out =>
    have h := sendAudioGo_fifo fuel data 0 rb st sched out (Nat.zero_le _)
      (by simpa [send_audio] using he)
    simpa [sendFifoOK] using h

/-- C7 (amended): in every terminating send_audio run, a retry that begins
with a nonzero accumulated count is immediately preceded by a back-off
sleep, and a retry whose accumulated count is still zero runs with no
sleep before it. -/
theorem retry_sleep_iff_progress (data : List ℚ) (rb : RingBuffer) (st : PlayerStatus)
    (sched : List Nat) (fuel : Nat) :
    sleepPatternOK (send_audio data rb st sched fuel) := by
  cases he : send_audio data rb st sched fuel with
  | none => simp [sleepPatternOK]
  | some out =>
    have h := sendAudioGo_sleepPattern fuel data 0 rb st sched out
      (by simpa [send_audio] using he)
    simpa [sleepPatternOK] using h

/-- C7 counterexample to the claim as stated: with the ring full on entry,
the first push transfers 0 samples and the loop retries with sent_size
still 0, so no sleep precedes the second push - the trace contains two
adjacent pushes. -/
theorem retry_without_sleep_cex :
    (send_audio [1, 2] (RingBuffer.mk 2 [5, 6]) PlayerStatus.new [0, 2] 3).map
      (fun out => noBackToBackPush out.events) = some false := by
  decide

/-- C8: on the Idle to Streaming transition, a successful AudioSink start
stores is_playing = true, and a failed start aborts the run (the panic at
main.rs line 193, modelled as none) without is_playing ever being set. -/
theorem start_stream_transition (st : PlayerStatus) :
    startStream true st = some { st with is_playing := true }
    ∧ startStream false st = none :=
  ⟨rfl, rfl⟩

/-- C10: on an invocation in which the completion condition fires, the full
buffer of frames was already counted into frames_played before is_playing
was cleared, and the pop returned 0 samples, so all of those frames were
silence. -/
theorem completion_counts_trailing_silence (rb : RingBuffer) (st : PlayerStatus)
    (buf : List ℚ) (frames : Nat)
    (h : (callback rb st buf frames).flow = StreamCallbackResult.Complete) :
    (callback rb st buf frames).status.frames_played = st.frames_played + frames
    ∧ (callback rb st buf frames).recv_size = 0 := by
  rw [callback_def] at h
  dsimp only at h
  constructor
  · rw [callback_def]
  · rw [callback_def]
    dsimp only
    split at h
    · rename_i hc
      simp only [Bool.and_eq_true, beq_iff_eq] at hc
      exact hc.2
    · exact absurd h (by simp)

/-- C2: the sample counts both assertions inspect are always multiples of
the channel count: the count a callback pop returns, and every value of
sent_size right after a push in a terminating send_audio run, for every
partial-write size the ring can produce under any consumer schedule that
pops whole buffers. -/
theorem pop_push_counts_aligned (rb : RingBuffer) (st : PlayerStatus) (buf : List ℚ)
    (frames : Nat) (data : List ℚ) (rb2 : RingBuffer) (st2 : PlayerStatus)
    (sched : List Nat) (fuel : Nat)
    (h1 : rb.queue.length % CHANNELS = 0) (h2 : buf.length % CHANNELS = 0)
    (h3 : data.length % CHANNELS = 0) (h4 : rb2.capacity % CHANNELS = 0)
    (h5 : rb2.queue.length % CHANNELS = 0)
    (h6 : sched.all (fun n => n % CHANNELS == 0) = true) :
    (callback rb st buf frames).recv_size % CHANNELS = 0
    ∧ sendAssertOK (send_audio data rb2 st2 sched fuel) = true := by
  constructor
  · rw [callback_def]
    dsimp only
    simp only [CHANNELS] at h1 h2 ⊢
    omega
  · cases he : send_audio data rb2 st2 sched fuel with
    | none => simp [sendAssertOK]
    | some out =>
      have h6' : ∀ n ∈ sched, n % CHANNELS = 0 := by
        intro n hn
        simpa using List.all_eq_true.mp h6 n hn
      have hal := sendAudioGo_aligned fuel data 0 rb2 st2 sched out h3 (by simp)
        (Nat.zero_le _) h4 h5 h6' (by simpa [send_audio] using he)
      simpa [sendAssertOK] using hal.1

/-- C3: for every decoded slice, a terminating send_audio run grows
frames_decoded by exactly the slice's sample count divided by the channel
count - the per-push increments sum to the whole-frame total. -/
theorem frames_decoded_exact (data : List ℚ) (rb : RingBuffer) (st : PlayerStatus)
    (sched : List Nat) (fuel : Nat)
    (h1 : data.length % CHANNELS = 0) (h2 : rb.capacity % CHANNELS = 0)
    (h3 : rb.queue.length % CHANNELS = 0)
    (h4 : sched.all (fun n => n % CHANNELS == 0) = true) :
    sendDecodedOK st data (send_audio data rb st sched fuel) := by
  cases he : send_audio data rb st sched fuel with
  | none => simp [sendDecodedOK]
  | some out =>
    have h4' : ∀ n ∈ sched, n % CHANNELS = 0 := by
      intro n hn
      simpa using List.all_eq_true.mp h4 n hn
    have hal := sendAudioGo_aligned fuel data 0 rb st sched out h1 (by simp)
      (Nat.zero_le _) h2 h3 h4' (by simpa [send_audio] using he)
    simpa [sendDecodedOK] using hal.2

/-- C5: after a callback invocation, every buffer slot below the received
count holds its ring-sourced sample scaled by the gain exactly once, and
every slot from the received count up to the buffer end holds exactly 0. -/
theorem callback_gain_and_silence (rb : RingBuffer) (st : PlayerStatus) (buf : List ℚ)
    (frames : Nat) (hlen : buf.length = frames * CHANNELS) :
    (callback rb st buf frames).buffer
      = (rb.queue.take (callback rb st buf frames).recv_size).map (fun x => x * GAIN)
        ++ List.replicate (frames * CHANNELS - (callback rb st buf frames).recv_size) 0 := by
  rw [callback_def]
  dsimp only
  have hmb : min buf.length rb.queue.length ≤ buf.length := min_le_left _ _
  have htl : (rb.queue.take (min buf.length rb.queue.length)).length
      = min buf.length rb.queue.length := by
    simp [List.length_take]
  have hl : (rb.queue.take (min buf.length rb.queue.length)
      ++ buf.drop (min buf.length rb.queue.length)).length = buf.length := by
    simp [List.length_take, List.length_drop]
  have happ := applyRange_full
    (rb.queue.take (min buf.length rb.queue.length)
      ++ buf.drop (min buf.length rb.queue.length))
    (min buf.length rb.queue.length) (CHANNELS * frames)
    (by rw [hl]; exact hmb)
    (by rw [hl, hlen]; simp only [CHANNELS]; omega)
  rw [happ, List.take_left' htl, hl, hlen]

/-- C9: for a non-empty stream there is a reachable interleaving - the
callback firing right after the stream starts, before the first frame is
fed - in which the very first invocation observes is_decoding still false,
an empty ring and a pop of 0, and terminates playback prematurely: the
sink stops and is_playing is false while every decoded frame is still
pending and nothing was ever decoded into the ring. -/
theorem premature_completion_reachable (pending : List (List ℚ)) (buffer : List ℚ)
    (frames : Nat) (h : pending ≠ []) :
    (sysStep (initSys pending) (MainOp.cb buffer frames)).stopped = true
    ∧ (sysStep (initSys pending) (MainOp.cb buffer frames)).status.is_playing = false
    ∧ (sysStep (initSys pending) (MainOp.cb buffer frames)).pending ≠ []
    ∧ (sysStep (initSys pending) (MainOp.cb buffer frames)).status.frames_decoded = 0
    ∧ (sysStep (initSys pending) (MainOp.cb buffer frames)).rb.queue = [] := by
  refine ⟨?_, ?_, ?_, ?_, ?_⟩ <;>
    simp [sysStep, initSys, startStream, PlayerStatus.new, RingBuffer.new, callback_def, h]

/-- Witness for C2 at concrete inputs: a two-sample ring popped into a
four-slot buffer, and a feeder run for a two-sample slice against a
two-slot ring with one whole-buffer consumer pop. -/
theorem pop_push_counts_aligned_witness :
    ((RingBuffer.mk 4 [1, 2]).queue.length % CHANNELS = 0
      ∧ ([3, 4, 5, 6] : List ℚ).length % CHANNELS = 0
      ∧ ([1, 2] : List ℚ).length % CHANNELS = 0
      ∧ (RingBuffer.mk 2 []).capacity % CHANNELS = 0
      ∧ (RingBuffer.mk 2 []).queue.length % CHANNELS = 0
      ∧ ([2] : List Nat).all (fun n => n % CHANNELS == 0) = true)
    ∧ ((callback (RingBuffer.mk 4 [1, 2]) PlayerStatus.new [3, 4, 5, 6] 2).recv_size
          % CHANNELS = 0
      ∧ sendAssertOK (send_audio [1, 2] (RingBuffer.mk 2 []) PlayerStatus.new [2] 3) = true) :=
  ⟨⟨by decide, by decide, by decide, by decide, by decide, by decide⟩,
    pop_push_counts_aligned (RingBuffer.mk 4 [1, 2]) PlayerStatus.new [3, 4, 5, 6] 2
      [1, 2] (RingBuffer.mk 2 []) PlayerStatus.new [2] 3
      (by decide) (by decide) (by decide) (by decide) (by decide) (by decide)⟩

/-- Witness for C3 at a concrete input: a four-sample slice fed into an
empty four-slot ring grows frames_decoded by exactly 2 frames. -/
theorem frames_decoded_exact_witness :
    (([1, 2, 3, 4] : List ℚ).length % CHANNELS = 0
      ∧ (RingBuffer.mk 4 []).capacity % CHANNELS = 0
      ∧ (RingBuffer.mk 4 []).queue.length % CHANNELS = 0
      ∧ ([] : List Nat).all (fun n => n % CHANNELS == 0) = true)
    ∧ sendDecodedOK PlayerStatus.new [1, 2, 3, 4]
        (send_audio [1, 2, 3, 4] (RingBuffer.mk 4 []) PlayerStatus.new [] 2) :=
  ⟨⟨by decide, by decide, by decide, by decide⟩,
    frames_decoded_exact [1, 2, 3, 4] (RingBuffer.mk 4 []) PlayerStatus.new [] 2
      (by decide) (by decide) (by decide) (by decide)⟩

/-- Witness for C5 at a concrete input: two queued samples popped into a
two-frame stereo buffer leave the two gain-scaled samples followed by two
zeros. -/
theorem callback_gain_and_silence_witness :
    (([3, 4, 5, 6] : List ℚ).length = 2 * CHANNELS)
    ∧ (callback (RingBuffer.mk 4 [1, 2]) PlayerStatus.new [3, 4, 5, 6] 2).buffer
        = ((RingBuffer.mk 4 [1, 2]).queue.take
            (callback (RingBuffer.mk 4 [1, 2]) PlayerStatus.new [3, 4, 5, 6] 2).recv_size).map
              (fun x => x * GAIN)
          ++ List.replicate (2 * CHANNELS
              - (callback (RingBuffer.mk 4 [1, 2]) PlayerStatus.new [3, 4, 5, 6] 2).recv_size)
              0 :=
  ⟨by decide,
    callback_gain_and_silence (RingBuffer.mk 4 [1, 2]) PlayerStatus.new [3, 4, 5, 6] 2
      (by decide)⟩

/-- Witness for C9 at a concrete input: one pending decoded frame, a
one-frame callback buffer; the first callback after start stops playback
with the frame still pending. -/
theorem premature_completion_reachable_witness :
    ([[1, 1]] : List (List ℚ)) ≠ []
    ∧ ((sysStep (initSys [[1, 1]]) (MainOp.cb [0, 0] 1)).stopped = true
      ∧ (sysStep (initSys [[1, 1]]) (MainOp.cb [0, 0] 1)).status.is_playing = false
      ∧ (sysStep (initSys [[1, 1]]) (MainOp.cb [0, 0] 1)).pending ≠ []
      ∧ (sysStep (initSys [[1, 1]]) (MainOp.cb [0, 0] 1)).status.frames_decoded = 0
      ∧ (sysStep (initSys [[1, 1]]) (MainOp.cb [0, 0] 1)).rb.queue = []) :=
  ⟨by decide, premature_completion_reachable [[1, 1]] [0, 0] 1 (by decide)⟩

/-- Witness for C10 at a concrete input: an empty ring with decoding
finished; the completing one-frame invocation still counts its frame. -/
theorem completion_counts_trailing_silence_witness :
    (callback (RingBuffer.mk BUFFER_SIZE []) PlayerStatus.new [0, 0] 1).flow
        = StreamCallbackResult.Complete
    ∧ ((callback (RingBuffer.mk BUFFER_SIZE []) PlayerStatus.new [0, 0] 1).status.frames_played
          = PlayerStatus.new.frames_played + 1
      ∧ (callback (RingBuffer.mk BUFFER_SIZE []) PlayerStatus.new [0, 0] 1).recv_size = 0) :=
  ⟨by decide,
    completion_counts_trailing_silence (RingBuffer.mk BUFFER_SIZE []) PlayerStatus.new [0, 0] 1
      (by decide)⟩
